import Mathlib

/-!
Verification of the WarZone Forex Analytics dashboard (`FxMe.py`).

Shallow embedding conventions:
* Python `float` values are modelled as exact rationals (`ℚ`);
  `round(x, n)` is modelled as decimal rounding half-to-even (`pyRound`).
* Python `str` values are `String`; `str.strip` is modelled as trimming
  ASCII whitespace and `str.isdigit` as "non-empty and all ASCII digits".
* A trade dictionary is the record `Trade`; every key is always present
  (the code only ever builds complete dictionaries), so `dict.get` with a
  default becomes plain field access.
* I/O (the price API, the spreadsheet API) is replaced by explicit
  parameters: a price oracle `String → Option ℚ` and a `SheetsResponse`
  value describing what the backend returned (data or which exception).
-/

namespace FxMe

/-- A trade record, as built by `load_trades_from_sheets`, the fallback
dataset and the Add Trade handler in `FxMe.py`. -/
structure Trade where
  id : ℤ
  date : String
  trader : String
  instrument : String
  entry : ℚ
  sl : ℚ
  target : ℚ
  risk : ℚ
  reward : ℚ
  rrRatio : ℚ
  outcome : String
  result : String
deriving Repr, DecidableEq

/-- Round a rational to the nearest integer, ties to even
(Python's `round` on a one-argument call / banker's rounding). -/
def roundHalfEven (q : ℚ) : ℤ :=
  if q - ⌊q⌋ < 1/2 then ⌊q⌋
  else if 1/2 < q - ⌊q⌋ then ⌊q⌋ + 1
  else if ⌊q⌋ % 2 = 0 then ⌊q⌋ else ⌊q⌋ + 1

/-- Python `round(q, n)`: round to `n` decimal places, ties to even. -/
def pyRound (q : ℚ) (n : ℕ) : ℚ :=
  (roundHalfEven (q * 10 ^ n) : ℚ) / 10 ^ n

/-- `check_trade_outcome(trade, live_price)` (FxMe.py lines 84-116).
`live_price = none` models Python `None`; the code's `not live_price`
is `none` or a zero price. -/
def check_trade_outcome (t : Trade) (live_price : Option ℚ) : Trade :=
  match live_price with
  | none => t
  | some p =>
    if p = 0 ∨ t.outcome = "Target Hit" ∨ t.outcome = "SL Hit" then t
    else if t.entry = 0 ∨ t.sl = 0 ∨ t.target = 0 then t
    else if t.entry < t.target then
      -- long trade: SL below entry, target above
      if p ≤ t.sl then { t with outcome := "SL Hit", result := "Loss" }
      else if t.target ≤ p then { t with outcome := "Target Hit", result := "Win" }
      else t
    else
      -- short trade: SL above entry, target below
      if t.sl ≤ p then { t with outcome := "SL Hit", result := "Loss" }
      else if p ≤ t.target then { t with outcome := "Target Hit", result := "Win" }
      else t

/-- A trade is open when its outcome is neither `Target Hit` nor `SL Hit`
(the filter on line 124 of FxMe.py). -/
def isOpen (t : Trade) : Bool :=
  !(t.outcome == "Target Hit") && !(t.outcome == "SL Hit")

/-- `get_multiple_prices(instruments)` (lines 74-82), with the network
call `get_live_price` abstracted into the oracle `priceOf`.  The result
models the produced dict: an instrument is present iff it is in the
queried list and its price was truthy (`if price:` skips `None` and `0`). -/
def get_multiple_prices (priceOf : String → Option ℚ) (instruments : List String) :
    String → Option ℚ :=
  fun instr =>
    if instr ∈ instruments then
      match priceOf instr with
      | some p => if p = 0 then none else some p
      | none => none
    else none

/-- The price dict built inside `update_trade_outcomes` (lines 128-131):
prices for the instruments of the open trades.  Python dedups via `set`,
which a list lookup by membership models exactly. -/
def live_price_map (priceOf : String → Option ℚ) (trades : List Trade) :
    String → Option ℚ :=
  get_multiple_prices priceOf ((trades.filter isOpen).map (fun t => t.instrument))

/-- `update_trade_outcomes` returns either the bare input list or a
`(updated_trades, changes_made)` tuple. -/
inductive UpdateResult where
  | single (trades : List Trade)
  | tuple (trades : List Trade) (changes_made : Bool)
deriving Repr, DecidableEq

/-- `update_trade_outcomes(trades)` (lines 118-150), with the price
oracle made explicit. -/
def update_trade_outcomes (priceOf : String → Option ℚ) (trades : List Trade) :
    UpdateResult :=
  if trades.isEmpty then UpdateResult.single trades
  else if (trades.filter isOpen).isEmpty then UpdateResult.single trades
  else
    let live_prices := live_price_map priceOf trades
    let updated_trades :=
      trades.map (fun t => check_trade_outcome t (live_prices t.instrument))
    let changes_made :=
      trades.any (fun t =>
        (check_trade_outcome t (live_prices t.instrument)).outcome != t.outcome)
    UpdateResult.tuple updated_trades changes_made

/-! ### Spreadsheet row parsing (`load_trades_from_sheets`, lines 170-251) -/

/-- Python `str.strip()` (ASCII-whitespace model): drop whitespace from
both ends of the character list. -/
def pyStrip (s : String) : String :=
  ⟨((s.data.dropWhile Char.isWhitespace).reverse.dropWhile Char.isWhitespace).reverse⟩

/-- Python `s.isdigit()` (ASCII model): non-empty and all digits. -/
def pyIsdigit (s : String) : Bool :=
  !s.isEmpty && s.data.all Char.isDigit

/-- The numeric-cell test `str(x).replace(".", "").replace("-", "").isdigit()`
used for entry/sl/target/risk/reward/rrRatio cells. -/
def digitTest (s : String) : Bool :=
  let r := s.data.filter (fun c => !(c == '.') && !(c == '-'))
  !r.isEmpty && r.all Char.isDigit

/-- Full guard on a numeric cell: the cell is truthy (non-empty string)
and passes `digitTest`. -/
def numGuard (s : String) : Bool := !s.isEmpty && digitTest s

/-- Guard on the id cell: `row[0] and str(row[0]).strip().isdigit()`. -/
def idGuard (s : String) : Bool := !s.isEmpty && pyIsdigit (pyStrip s)

/-- Value of a digit string (most significant digit first). -/
def digitsToNat (cs : List Char) : ℕ :=
  cs.foldl (fun acc c => 10 * acc + (c.toNat - 48)) 0

/-- Python `int(s)` on a cell passing `idGuard`: strip, then read digits. -/
def pyIntOfString (s : String) : ℤ :=
  (digitsToNat (pyStrip s).data : ℤ)

/-- Core of Python `float(s)` for sign-free input: digits with at most one
decimal point and at least one digit; `none` models a raised `ValueError`. -/
def floatCore (cs : List Char) : Option ℚ :=
  let ip := cs.takeWhile Char.isDigit
  let rest := cs.dropWhile Char.isDigit
  match rest with
  | [] => if ip.isEmpty then none else some (digitsToNat ip : ℚ)
  | '.' :: fp =>
    if fp.all Char.isDigit && (!ip.isEmpty || !fp.isEmpty) then
      some ((digitsToNat ip : ℚ) + (digitsToNat fp : ℚ) / 10 ^ fp.length)
    else none
  | _ => none

/-- Python `float(s)` restricted to the decimal literals reachable behind
`numGuard` (optional leading minus, digits, at most one point).  `none`
models a raised `ValueError`, e.g. on `"1.2.3"` or `"1-2"`. -/
def pyFloatOfString (s : String) : Option ℚ :=
  match s.data with
  | '-' :: cs => (floatCore cs).map (fun q => -q)
  | cs => floatCore cs

/-- Pad a row to 12 cells with empty strings
(the `while len(row) < 12: row.append('')` loop, line 212). -/
def pad12 (row : List String) : List String :=
  row ++ List.replicate (12 - row.length) ""

/-- Cell access on the padded row. -/
def cell (row : List String) (j : ℕ) : String := (pad12 row).getD j ""

/-- Conversion of one numeric cell: `float(x) if x and digitTest(x) else 0.0`.
An error is a `ValueError` escaping `float`, caught by the per-row handler. -/
def convNum (s : String) : Except Unit ℚ :=
  if numGuard s then
    match pyFloatOfString s with
    | some v => Except.ok v
    | none => Except.error ()
  else Except.ok (0 : ℚ)

/-- The body of the per-row `try` block (lines 210-228): build the
`processed_record` dict for row index `i` (0-based over the data rows). -/
def rowConvert (i : ℕ) (row : List String) : Except Unit Trade := do
  let entry ← convNum (cell row 4)
  let sl ← convNum (cell row 5)
  let target ← convNum (cell row 6)
  let risk ← convNum (cell row 7)
  let reward ← convNum (cell row 8)
  let rrRatio ← convNum (cell row 9)
  Except.ok
    { id := if idGuard (cell row 0) then pyIntOfString (cell row 0) else (i + 1 : ℤ)
      date := if cell row 1 = "" then "" else pyStrip (cell row 1)
      trader := if cell row 2 = "" then "" else pyStrip (cell row 2)
      instrument := if cell row 3 = "" then "" else pyStrip (cell row 3)
      entry := entry, sl := sl, target := target
      risk := risk, reward := reward, rrRatio := rrRatio
      outcome := if cell row 10 = "" then "" else pyStrip (cell row 10)
      result := if cell row 11 = "" then "" else pyStrip (cell row 11) }

/-- The `if not any(str(cell).strip() for cell in row)` skip (line 207). -/
def isEmptyRow (row : List String) : Bool :=
  row.all (fun c => (pyStrip c).isEmpty)

/-- Outcome of one loop iteration: `some t` when the row produced a kept
record, `none` when the row was skipped (blank row, caught exception, or
missing trader/instrument). -/
def processRow (i : ℕ) (row : List String) : Option Trade :=
  if isEmptyRow row then none
  else
    match rowConvert i row with
    | Except.error _ => none
    | Except.ok t =>
      if !t.trader.isEmpty && !t.instrument.isEmpty then some t else none

/-- The row loop (lines 204-236) starting at row index `i`. -/
def processRowsAux : ℕ → List (List String) → List Trade
  | _, [] => []
  | i, row :: rest =>
    match processRow i row with
    | some t => t :: processRowsAux (i + 1) rest
    | none => processRowsAux (i + 1) rest

/-- All `processed_records` for the data rows. -/
def processRows (rows : List (List String)) : List Trade :=
  processRowsAux 0 rows

/-- The expected header row (line 193). -/
def expected_headers : List String :=
  ["id", "date", "trader", "instrument", "entry", "sl", "target",
   "risk", "reward", "rrRatio", "outcome", "result"]

/-- `load_fallback_data()` (lines 436-443). -/
def load_fallback_data : List Trade :=
  [{ id := 1, date := "2023-10-08", trader := "Waithaka", instrument := "XAUUSD",
     entry := 1820.50, sl := 1815.00, target := 1830.00, risk := 5.50,
     reward := 9.50, rrRatio := 1.73, outcome := "Target Hit", result := "Win" },
   { id := 2, date := "2023-10-07", trader := "Wallace", instrument := "USOIL",
     entry := 89.30, sl := 88.50, target := 91.00, risk := 0.80,
     reward := 1.70, rrRatio := 2.13, outcome := "SL Hit", result := "Loss" },
   { id := 3, date := "2023-10-06", trader := "Max", instrument := "BTCUSD",
     entry := 27450.00, sl := 27200.00, target := 27800.00, risk := 250.00,
     reward := 350.00, rrRatio := 1.40, outcome := "Target Hit", result := "Win" },
   { id := 4, date := "2023-10-05", trader := "Waithaka", instrument := "EURUSD",
     entry := 1.06250, sl := 1.06000, target := 1.06700, risk := 0.00250,
     reward := 0.00450, rrRatio := 1.80, outcome := "Target Hit", result := "Win" }]

/-- What the spreadsheet backend produced: either the grid of cell values,
or which failure occurred (no connection, one of the caught exception
classes). -/
inductive SheetsResponse where
  | noConnection
  | spreadsheetNotFound
  | worksheetNotFound
  | apiError
  | otherError
  | ok (values : List (List String))
deriving Repr, DecidableEq

/-- `load_trades_from_sheets()` (lines 170-251) as a function of the
backend response. -/
def load_trades_from_sheets (resp : SheetsResponse) : List Trade :=
  match resp with
  | SheetsResponse.ok all_values =>
    if all_values.length < 2 then load_fallback_data
    else
      let headers := all_values.headD []
      if headers ≠ expected_headers ∧ headers.length < 12 then load_fallback_data
      else
        let recs := processRows (all_values.drop 1)
        if recs.isEmpty then load_fallback_data else recs
  | _ => load_fallback_data

/-! ### The Add Trade button handler (lines 962-1002) -/

/-- `max_id = max([trade.get('id', 0) for trade in trades], default=0)`
followed by `max_id + 1` (lines 986-990). -/
def new_trade_id (trades : List Trade) : ℤ :=
  (match trades.map (fun t => t.id) with
   | [] => 0
   | x :: xs => xs.foldl max x) + 1

/-- The Add Trade button handler.  `none` models the error paths
(missing fields, or `st.stop()` when no outcome was selected); `some`
carries the `new_trade` dict appended to the session state. -/
def addTrade (trades : List Trade) (trader instrument trade_date outcome : String)
    (entry sl target : ℚ) (live_prices_enabled : Bool) : Option Trade :=
  if trader ≠ "Select Trader" ∧ instrument ≠ "Select Instrument" ∧
      entry ≠ 0 ∧ sl ≠ 0 ∧ target ≠ 0 then
    let risk := |entry - sl|
    let reward := |target - entry|
    let rr_ratio := if risk ≠ 0 then reward / risk else 0
    let ocres : Option (String × String) :=
      if live_prices_enabled then
        if outcome = "Open Trade" then some ("Open Trade", "Pending")
        else some (outcome, if outcome = "Target Hit" then "Win" else "Loss")
      else
        if outcome = "Target Hit" ∨ outcome = "SL Hit" then
          some (outcome, if outcome = "Target Hit" then "Win" else "Loss")
        else none
    match ocres with
    | none => none
    | some (oc, res) =>
      some { id := new_trade_id trades
             date := trade_date, trader := trader, instrument := instrument
             entry := entry, sl := sl, target := target
             risk := pyRound risk 4, reward := pyRound reward 4
             rrRatio := pyRound rr_ratio 2
             outcome := oc, result := res }
  else none

/-! ### Trader rankings (lines 1106-1134) -/

/-- One ranking row: the dict appended on lines 1122-1128 plus the
`rank` field set on line 1132. -/
structure RankEntry where
  name : String
  win_rate : ℚ
  wins : ℕ
  losses : ℕ
  total : ℕ
  rank : ℕ
deriving Repr, DecidableEq

/-- One `trader_stats` update (lines 1110-1115): bump the stats of
`tr` in the insertion-ordered dict, creating `{'wins': 0, 'total': 0}`
first when absent. -/
def bumpStats : List (String × ℕ × ℕ) → String → Bool → List (String × ℕ × ℕ)
  | [], tr, isWin => [(tr, (if isWin then 1 else 0, 1))]
  | (name, w, n) :: rest, tr, isWin =>
    if name = tr then (name, ((if isWin then w + 1 else w), n + 1)) :: rest
    else (name, (w, n)) :: bumpStats rest tr isWin

/-- The `trader_stats` dict (trader ↦ (wins, total)) after the loop on
lines 1108-1115, as an insertion-ordered association list. -/
def traderStats (trades : List Trade) : List (String × ℕ × ℕ) :=
  trades.foldl
    (fun acc t =>
      if t.trader ≠ "" then bumpStats acc t.trader (t.result == "Win") else acc)
    []

/-- Set `ranking['rank'] = i + 1` down the sorted list (lines 1131-1132). -/
def assignRanks : ℕ → List RankEntry → List RankEntry
  | _, [] => []
  | i, e :: es => { e with rank := i + 1 } :: assignRanks (i + 1) es

/-- The `rankings` list (lines 1106-1134): one entry per trader with at
least one trade, sorted stably by win rate in decreasing order
(`sort(key=..., reverse=True)`), then ranked 1..n. -/
def rankingsOf (trades : List Trade) : List RankEntry :=
  if trades.isEmpty then []
  else
    let entries := (traderStats trades).filterMap (fun s =>
      if 0 < s.2.2 then
        some { name := s.1
               win_rate := pyRound ((s.2.1 : ℚ) / (s.2.2 : ℚ) * 100) 1
               wins := s.2.1, losses := s.2.2 - s.2.1, total := s.2.2
               rank := 0 }
      else none)
    assignRanks 0 (entries.mergeSort (fun a b => decide (b.win_rate ≤ a.win_rate)))

/-! ### Instrument performance by trader (lines 1414-1433) -/

/-- The trades of one trader on one instrument (lines 1425-1426). -/
def pairTrades (trades : List Trade) (tr ins : String) : List Trade :=
  trades.filter (fun t => t.trader == tr && t.instrument == ins)

/-- The value behind one matrix cell (lines 1427-1432): `none` renders as
`"-"`, `some r` renders as the percentage `r` (formatted `f"{r:.0f}%"`,
formatting being presentation). -/
def perfCell (trades : List Trade) (tr ins : String) : Option ℚ :=
  let ts := pairTrades trades tr ins
  if ts.isEmpty then none
  else some (((ts.countP (fun t => t.result == "Win") : ℚ) / (ts.length : ℚ)) * 100)

/-! ### Spec-side definitions (for the refinement comparison in C1) -/

/-- Stated from the spec claim C1, NOT from the code: win rate as "the
number of trades with result `Win` divided by the number of closed trades
(outcome `Target Hit` or `SL Hit`) of that trader", as a percentage. -/
def specWinRateTrader (trades : List Trade) (tr : String) : ℚ :=
  let mine := trades.filter (fun t => t.trader == tr)
  ((mine.countP (fun t => t.result == "Win") : ℚ) /
    (mine.countP (fun t => t.outcome == "Target Hit" || t.outcome == "SL Hit") : ℚ)) * 100

/-- Wins of one trader over ALL their trades (used to state what the code
actually computes). -/
def traderWins (trades : List Trade) (tr : String) : ℕ :=
  (trades.filter (fun t => t.trader == tr)).countP (fun t => t.result == "Win")

/-- Number of trades (open or closed) of one trader. -/
def traderTotal (trades : List Trade) (tr : String) : ℕ :=
  (trades.filter (fun t => t.trader == tr)).length

/-- First-match lookup in the stats association list (a Python dict has
unique keys, which `traderStats` maintains). -/
def statsLookup : List (String × ℕ × ℕ) → String → Option (ℕ × ℕ)
  | [], _ => none
  | (name, wn) :: rest, tr => if name = tr then some wn else statsLookup rest tr

/-- The keys of the stats association list. -/
def statsKeys (l : List (String × ℕ × ℕ)) : List String := l.map (fun s => s.1)

/-! ### Concrete fixtures used by witnesses and the C1 counterexample -/

/-- A closed winning trade of trader `Waithaka` on `XAUUSD`. -/
def cexTrade1 : Trade :=
  { id := 1, date := "2023-10-08", trader := "Waithaka", instrument := "XAUUSD"
    entry := 1, sl := 2, target := 3, risk := 0, reward := 0, rrRatio := 0
    outcome := "Target Hit", result := "Win" }

/-- A still-open trade of the same trader on the same instrument. -/
def cexTrade2 : Trade :=
  { cexTrade1 with id := 2, outcome := "Open Trade", result := "Pending" }

/-- A two-trade list: one closed win, one open trade. -/
def cexTrades : List Trade := [cexTrade1, cexTrade2]

/-- The single ranking entry computed from `cexTrades`. -/
def cexEntry : RankEntry :=
  { name := "Waithaka", win_rate := pyRound ((1 : ℚ) / 2 * 100) 1
    wins := 1, losses := 1, total := 2, rank := 1 }

/-- A spreadsheet row whose numeric cells exercise both guard outcomes. -/
def wrow : List String :=
  ["7", "2023-01-01", "Alice", "EURUSD", "15", "abc", "", "2", "3", "x1",
   "Open", "Pending"]

/-- The record `wrow` converts to. -/
def wtrade : Trade :=
  { id := 7, date := "2023-01-01", trader := "Alice", instrument := "EURUSD"
    entry := 15, sl := 0, target := 0, risk := 2, reward := 3, rrRatio := 0
    outcome := "Open", result := "Pending" }

/-- A row whose entry cell passes the digit test but makes `float` raise. -/
def erow : List String :=
  ["", "", "a", "b", "1.2.3", "", "", "", "", "", "", ""]

/-- The trade produced by the Add Trade handler on an empty session with
entry 10, stop 9, target 12 and a manually selected `Target Hit`. -/
def wt5 : Trade :=
  { id := 1, date := "d", trader := "Al", instrument := "EU"
    entry := 10, sl := 9, target := 12
    risk := pyRound |(10 : ℚ) - 9| 4, reward := pyRound |(12 : ℚ) - 10| 4
    rrRatio := pyRound (|(12 : ℚ) - 10| / |(10 : ℚ) - 9|) 2
    outcome := "Target Hit", result := "Win" }

/-- Bind on a successful `Except` computation steps to the continuation. -/
theorem except_bind_ok {ε α β : Type} (a : α) (f : α → Except ε β) :
    ((Except.ok a : Except ε α) >>= f) = f a := rfl

/-- Bind on a failed `Except` computation propagates the error. -/
theorem except_bind_error {ε α β : Type} (e : ε) (f : α → Except ε β) :
    ((Except.error e : Except ε α) >>= f) = Except.error e := rfl

/-- Rounding zero gives zero (used for the guarded rrRatio division). -/
theorem pyRound_zero (n : ℕ) : pyRound 0 n = 0 := by
  have h0 : roundHalfEven 0 = 0 := by
    simp [roundHalfEven]
  simp [pyRound, h0]

/-! ### C2: the long/short stop-loss / target decision rule -/

/-- C2.  For an open trade with nonzero entry, sl and target and a nonzero
live price, `check_trade_outcome` treats the trade as long iff
`target > entry`; for a long trade `price ≤ sl` closes it as
`SL Hit`/`Loss` (with priority), otherwise `price ≥ target` closes it as
`Target Hit`/`Win`, otherwise it is unchanged; for a short trade the rule
is mirrored (`price ≥ sl` ⇒ loss, else `price ≤ target` ⇒ win). -/
theorem c2_outcome_rule (t : Trade) (p : ℚ)
    (ho1 : t.outcome ≠ "Target Hit") (ho2 : t.outcome ≠ "SL Hit")
    (he : t.entry ≠ 0) (hs : t.sl ≠ 0) (hg : t.target ≠ 0) (hp : p ≠ 0) :
    (t.entry < t.target →
      ((p ≤ t.sl →
          check_trade_outcome t (some p) = { t with outcome := "SL Hit", result := "Loss" }) ∧
       (t.sl < p → t.target ≤ p →
          check_trade_outcome t (some p) = { t with outcome := "Target Hit", result := "Win" }) ∧
       (t.sl < p → p < t.target → check_trade_outcome t (some p) = t))) ∧
    (¬ t.entry < t.target →
      ((t.sl ≤ p →
          check_trade_outcome t (some p) = { t with outcome := "SL Hit", result := "Loss" }) ∧
       (p < t.sl → p ≤ t.target →
          check_trade_outcome t (some p) = { t with outcome := "Target Hit", result := "Win" }) ∧
       (p < t.sl → t.target < p → check_trade_outcome t (some p) = t))) := by
  simp only [check_trade_outcome]
  rw [if_neg (by push_neg; exact ⟨hp, ho1, ho2⟩),
      if_neg (by push_neg; exact ⟨he, hs, hg⟩)]
  constructor
  · intro hl
    rw [if_pos hl]
    refine ⟨fun h1 => by rw [if_pos h1], fun h1 h2 => ?_, fun h1 h2 => ?_⟩
    · rw [if_neg (not_le.mpr h1), if_pos h2]
    · rw [if_neg (not_le.mpr h1), if_neg (not_le.mpr h2)]
  · intro hl
    rw [if_neg hl]
    refine ⟨fun h1 => by rw [if_pos h1], fun h1 h2 => ?_, fun h1 h2 => ?_⟩
    · rw [if_neg (not_le.mpr h1), if_pos h2]
    · rw [if_neg (not_le.mpr h1), if_neg (not_le.mpr h2)]

/-- Witness for C2 at a concrete long trade and a price at the stop. -/
theorem c2_outcome_rule_witness :
    check_trade_outcome cexTrade2 (some 2) =
      { cexTrade2 with outcome := "SL Hit", result := "Loss" } :=
  ((c2_outcome_rule cexTrade2 2 (by decide) (by decide) (by decide)
    (by decide) (by decide) (by decide)).1 (by decide)).1 (by decide)

/-! ### C9: frame conditions of `check_trade_outcome` -/

/-- C9.  `check_trade_outcome` returns the trade unchanged when it is
already closed, the price is missing or zero, or entry/sl/target is zero;
and it never modifies any field other than `outcome` and `result`. -/
theorem c9_frame (t : Trade) (p : Option ℚ) :
    ((t.outcome = "Target Hit" ∨ t.outcome = "SL Hit" ∨ p = none ∨ p = some 0 ∨
        t.entry = 0 ∨ t.sl = 0 ∨ t.target = 0) → check_trade_outcome t p = t) ∧
    ((check_trade_outcome t p).id = t.id ∧
     (check_trade_outcome t p).date = t.date ∧
     (check_trade_outcome t p).trader = t.trader ∧
     (check_trade_outcome t p).instrument = t.instrument ∧
     (check_trade_outcome t p).entry = t.entry ∧
     (check_trade_outcome t p).sl = t.sl ∧
     (check_trade_outcome t p).target = t.target ∧
     (check_trade_outcome t p).risk = t.risk ∧
     (check_trade_outcome t p).reward = t.reward ∧
     (check_trade_outcome t p).rrRatio = t.rrRatio) := by
  constructor
  · intro h
    cases p with
    | none => rfl
    | some q =>
      have h' : (q = 0 ∨ t.outcome = "Target Hit" ∨ t.outcome = "SL Hit") ∨
          (t.entry = 0 ∨ t.sl = 0 ∨ t.target = 0) := by
        rcases h with h | h | h | h | h | h | h
        · exact Or.inl (Or.inr (Or.inl h))
        · exact Or.inl (Or.inr (Or.inr h))
        · exact absurd h (by simp)
        · exact Or.inl (Or.inl (by injection h))
        · exact Or.inr (Or.inl h)
        · exact Or.inr (Or.inr (Or.inl h))
        · exact Or.inr (Or.inr (Or.inr h))
      simp only [check_trade_outcome]
      rcases h' with h1 | h2
      · rw [if_pos h1]
      · by_cases h1 : q = 0 ∨ t.outcome = "Target Hit" ∨ t.outcome = "SL Hit"
        · rw [if_pos h1]
        · rw [if_neg h1, if_pos h2]
  · cases p with
    | none => exact ⟨rfl, rfl, rfl, rfl, rfl, rfl, rfl, rfl, rfl, rfl⟩
    | some q =>
      simp only [check_trade_outcome]
      split_ifs <;> exact ⟨rfl, rfl, rfl, rfl, rfl, rfl, rfl, rfl, rfl, rfl⟩

/-- Witness for C9: a zero price leaves a concrete trade unchanged, and a
nonzero price never touches the entry field. -/
theorem c9_frame_witness :
    check_trade_outcome cexTrade2 (some 0) = cexTrade2 ∧
    (check_trade_outcome cexTrade2 (some 5)).entry = cexTrade2.entry :=
  ⟨(c9_frame cexTrade2 (some 0)).1 (Or.inr (Or.inr (Or.inr (Or.inl rfl)))),
   (c9_frame cexTrade2 (some 5)).2.2.2.2.2.1⟩

/-! ### C5: risk/reward statistics of an added trade -/

/-- C5.  Any trade produced by the Add Trade handler stores
`risk = round(|entry - sl|, 4)`, `reward = round(|target - entry|, 4)`,
and `rrRatio = round(reward/risk, 2)` computed from the unrounded
quantities when the risk is nonzero, `0` otherwise (the division is
guarded by `risk != 0` and can never raise). -/
theorem c5_risk_reward (trades : List Trade) (tr ins d oc : String)
    (entry sl target : ℚ) (lp : Bool) (t : Trade)
    (h : addTrade trades tr ins d oc entry sl target lp = some t) :
    t.risk = pyRound |entry - sl| 4 ∧
    t.reward = pyRound |target - entry| 4 ∧
    (entry - sl ≠ 0 → t.rrRatio = pyRound (|target - entry| / |entry - sl|) 2) ∧
    (entry - sl = 0 → t.rrRatio = 0) := by
  simp only [addTrade] at h
  split_ifs at h
  all_goals simp at h
  all_goals subst h
  all_goals refine ⟨rfl, rfl, fun hne => ?_, fun he0 => ?_⟩
  all_goals
    first
    | rfl
    | exact pyRound_zero 2
    | exact absurd (abs_ne_zero.mpr hne) (by assumption)
    | exact absurd (abs_eq_zero.mpr he0) (by assumption)

/-- Witness for C5 at a concrete manual trade (entry 10, stop 9, target 12). -/
theorem c5_risk_reward_witness :
    wt5.risk = pyRound |(10 : ℚ) - 9| 4 ∧
    wt5.reward = pyRound |(12 : ℚ) - 10| 4 ∧
    ((10 : ℚ) - 9 ≠ 0 → wt5.rrRatio = pyRound (|(12 : ℚ) - 10| / |(10 : ℚ) - 9|) 2) ∧
    ((10 : ℚ) - 9 = 0 → wt5.rrRatio = 0) :=
  c5_risk_reward [] "Al" "EU" "d" "Target Hit" 10 9 12 false wt5
    (by norm_num +decide [addTrade, wt5, new_trade_id])

/-! ### C7: result stays derived from outcome -/

/-- C7.  Both operations that set a trade's outcome keep the result
derived from it: `check_trade_outcome` either leaves the trade unchanged
or closes it as `SL Hit`/`Loss` or `Target Hit`/`Win`, and any trade
produced by the Add Trade handler has result `Win` when its outcome is
`Target Hit` and `Loss` when it is `SL Hit`. -/
theorem c7_result_derived :
    (∀ (t : Trade) (p : Option ℚ),
        check_trade_outcome t p = t ∨
        ((check_trade_outcome t p).outcome = "SL Hit" ∧
         (check_trade_outcome t p).result = "Loss") ∨
        ((check_trade_outcome t p).outcome = "Target Hit" ∧
         (check_trade_outcome t p).result = "Win")) ∧
    (∀ (trades : List Trade) (tr ins d oc : String) (entry sl target : ℚ)
        (lp : Bool) (t : Trade),
        addTrade trades tr ins d oc entry sl target lp = some t →
        (t.outcome = "Target Hit" → t.result = "Win") ∧
        (t.outcome = "SL Hit" → t.result = "Loss")) := by
  constructor
  · intro t p
    cases p with
    | none => exact Or.inl rfl
    | some q =>
      simp only [check_trade_outcome]
      split_ifs <;> simp
  · intro trades tr ins d oc entry sl target lp t h
    simp only [addTrade] at h
    split_ifs at h
    all_goals simp at h
    all_goals subst h
    all_goals constructor <;> intro hoc <;> simp_all

/-- Witness for C7: the checker closes a concrete open trade coherently,
and a concrete added trade with outcome `SL Hit` has result `Loss`. -/
theorem c7_result_derived_witness :
    (check_trade_outcome cexTrade2 (some 5) = cexTrade2 ∨
     ((check_trade_outcome cexTrade2 (some 5)).outcome = "SL Hit" ∧
      (check_trade_outcome cexTrade2 (some 5)).result = "Loss") ∨
     ((check_trade_outcome cexTrade2 (some 5)).outcome = "Target Hit" ∧
      (check_trade_outcome cexTrade2 (some 5)).result = "Win")) ∧
    ((wt5.outcome = "Target Hit" → wt5.result = "Win") ∧
     (wt5.outcome = "SL Hit" → wt5.result = "Loss")) :=
  ⟨c7_result_derived.1 cexTrade2 (some 5),
   c7_result_derived.2 [] "Al" "EU" "d" "Target Hit" 10 9 12 false wt5
     (by norm_num +decide [addTrade, wt5, new_trade_id])⟩

/-! ### C10: freshness of the generated trade id -/

/-- A left fold of `max` produces either its seed or a list element. -/
theorem foldl_max_choice (xs : List ℤ) (x : ℤ) :
    xs.foldl max x = x ∨ xs.foldl max x ∈ xs := by
  induction xs generalizing x with
  | nil => exact Or.inl rfl
  | cons a l ih =>
    rw [List.foldl_cons]
    rcases ih (max x a) with h | h
    · rcases max_choice x a with hm | hm
      · exact Or.inl (by rw [h, hm])
      · exact Or.inr (by rw [h, hm]; exact List.mem_cons_self a l)
    · exact Or.inr (List.mem_cons_of_mem a h)

/-- The seed is below a left fold of `max`. -/
theorem le_foldl_max_self (xs : List ℤ) (x : ℤ) : x ≤ xs.foldl max x := by
  induction xs generalizing x with
  | nil => exact le_refl x
  | cons a l ih => exact le_trans (le_max_left x a) (ih (max x a))

/-- Every list element is below a left fold of `max`. -/
theorem le_foldl_max_mem (xs : List ℤ) (x y : ℤ) (hy : y ∈ xs) :
    y ≤ xs.foldl max x := by
  induction xs generalizing x with
  | nil => cases hy
  | cons a l ih =>
    rw [List.foldl_cons]
    rcases List.mem_cons.mp hy with h | h
    · subst h
      exact le_trans (le_max_right x y) (le_foldl_max_self l (max x y))
    · exact ih _ h

/-- C10.  The id of a newly added trade is one more than the maximum
existing id (1 on an empty list), hence strictly greater than, and
distinct from, every existing trade's id. -/
theorem c10_new_id (trades : List Trade) :
    (trades = [] → new_trade_id trades = 1) ∧
    (trades ≠ [] → ∃ t0, t0 ∈ trades ∧ new_trade_id trades = t0.id + 1 ∧
        ∀ t ∈ trades, t.id ≤ t0.id) ∧
    (∀ t ∈ trades, t.id < new_trade_id trades) ∧
    (∀ (tr ins d oc : String) (entry sl target : ℚ) (lp : Bool) (t2 : Trade),
        addTrade trades tr ins d oc entry sl target lp = some t2 →
        t2.id = new_trade_id trades ∧ ∀ t ∈ trades, t.id ≠ t2.id) := by
  have hlt : ∀ t ∈ trades, t.id < new_trade_id trades := by
    intro t ht
    unfold new_trade_id
    cases htr : trades with
    | nil => simp [htr] at ht
    | cons a l =>
      subst htr
      have : t.id ∈ (a :: l).map (fun u => u.id) := List.mem_map_of_mem _ ht
      rw [List.map_cons] at this
      rcases List.mem_cons.mp this with h | h
      · rw [List.map_cons]
        exact lt_of_le_of_lt (h.le.trans (le_foldl_max_self _ _)) (lt_add_one _)
      · rw [List.map_cons]
        exact lt_of_le_of_lt (le_foldl_max_mem _ _ _ h) (lt_add_one _)
  refine ⟨fun h => by simp [new_trade_id, h], fun hne => ?_, hlt, ?_⟩
  · cases htr : trades with
    | nil => exact absurd htr hne
    | cons a l =>
      subst htr
      have hch := foldl_max_choice (l.map (fun u => u.id)) a.id
      rcases hch with h | h
      · refine ⟨a, List.mem_cons_self a l, ?_, ?_⟩
        · simp only [new_trade_id, List.map_cons]
          rw [h]
        · intro t ht
          have : t.id < new_trade_id (a :: l) := hlt t ht
          simp only [new_trade_id, List.map_cons, h] at this
          omega
      · rcases List.mem_map.mp h with ⟨t0, ht0, hid⟩
        refine ⟨t0, List.mem_cons_of_mem a ht0, ?_, ?_⟩
        · simp only [new_trade_id, List.map_cons]
          rw [hid]
        · intro t ht
          have : t.id < new_trade_id (a :: l) := hlt t ht
          simp only [new_trade_id, List.map_cons] at this
          rw [hid]
          omega
  · intro tr ins d oc entry sl target lp t2 h
    have hid : t2.id = new_trade_id trades := by
      simp only [addTrade] at h
      split_ifs at h
      all_goals simp at h
      all_goals subst h
      all_goals rfl
    exact ⟨hid, fun t ht => by rw [hid]; exact ne_of_lt (hlt t ht)⟩

/-- Witness for C10: the fresh id on the empty list is 1, and on the
two-trade fixture it exceeds a member's id. -/
theorem c10_new_id_witness :
    new_trade_id [] = 1 ∧ cexTrade1.id < new_trade_id cexTrades :=
  ⟨(c10_new_id []).1 rfl,
   (c10_new_id cexTrades).2.2.1 cexTrade1 (by simp [cexTrades])⟩

/-! ### C8: the shape of `update_trade_outcomes` -/

/-- C8.  On an empty list, or when no trade is open, the function returns
the bare input list; otherwise it returns a `(list, flag)` tuple whose
list has the same length and order as the input (position `i` holds the
checked version of input position `i`) and whose flag is true iff some
trade's outcome changed. -/
theorem c8_update_shape (priceOf : String → Option ℚ) (trades : List Trade) :
    ((trades = [] ∨ trades.filter isOpen = []) →
        update_trade_outcomes priceOf trades = UpdateResult.single trades) ∧
    (trades ≠ [] → trades.filter isOpen ≠ [] →
        update_trade_outcomes priceOf trades =
          UpdateResult.tuple
            (trades.map (fun t =>
              check_trade_outcome t (live_price_map priceOf trades t.instrument)))
            (trades.any (fun t =>
              (check_trade_outcome t (live_price_map priceOf trades t.instrument)).outcome
                != t.outcome)) ∧
        (trades.map (fun t =>
            check_trade_outcome t (live_price_map priceOf trades t.instrument))).length
          = trades.length ∧
        (∀ i : ℕ,
            (trades.map (fun t =>
              check_trade_outcome t (live_price_map priceOf trades t.instrument)))[i]? =
            (trades[i]?).map (fun t =>
              check_trade_outcome t (live_price_map priceOf trades t.instrument))) ∧
        ((trades.any (fun t =>
            (check_trade_outcome t (live_price_map priceOf trades t.instrument)).outcome
              != t.outcome)) = true ↔
          ∃ t ∈ trades,
            (check_trade_outcome t (live_price_map priceOf trades t.instrument)).outcome
              ≠ t.outcome)) := by
  constructor
  · intro h
    rcases h with h | h
    · simp [update_trade_outcomes, h]
    · simp [update_trade_outcomes, h]
  · intro h1 h2
    refine ⟨?_, List.length_map _ _, fun i => List.getElem?_map _ _ _, ?_⟩
    · simp only [update_trade_outcomes]
      rw [if_neg (by simpa [List.isEmpty_iff] using h1),
          if_neg (by simpa [List.isEmpty_iff] using h2)]
    · rw [List.any_eq_true]
      constructor
      · rintro ⟨t, ht, hb⟩
        exact ⟨t, ht, bne_iff_ne.mp hb⟩
      · rintro ⟨t, ht, hb⟩
        exact ⟨t, ht, bne_iff_ne.mpr hb⟩

/-- Witness for C8: the empty list comes back bare, and a singleton open
trade comes back as a tuple of the checked list and the change flag. -/
theorem c8_update_shape_witness :
    update_trade_outcomes (fun _ => none) [] = UpdateResult.single [] ∧
    update_trade_outcomes (fun _ => none) [cexTrade2] =
      UpdateResult.tuple
        ([cexTrade2].map (fun t =>
          check_trade_outcome t (live_price_map (fun _ => none) [cexTrade2] t.instrument)))
        ([cexTrade2].any (fun t =>
          (check_trade_outcome t
            (live_price_map (fun _ => none) [cexTrade2] t.instrument)).outcome
            != t.outcome)) :=
  ⟨(c8_update_shape (fun _ => none) []).1 (Or.inl rfl),
   ((c8_update_shape (fun _ => none) [cexTrade2]).2 (by simp)
     (by simp [isOpen, cexTrade2, cexTrade1])).1⟩

/-! ### C4: fallback behaviour of the sheets loader -/

/-- C4.  Whenever the backend fails in any way (no connection, sheet or
worksheet missing, API error, any other exception), or the sheet has
fewer than two rows, or no row yields a valid record, the loader returns
the fixed four-record fallback dataset; it never returns an empty list. -/
theorem c4_fallback (resp : SheetsResponse) :
    ((∀ v, resp ≠ SheetsResponse.ok v) →
        load_trades_from_sheets resp = load_fallback_data) ∧
    (∀ v, resp = SheetsResponse.ok v → v.length < 2 →
        load_trades_from_sheets resp = load_fallback_data) ∧
    (∀ v, resp = SheetsResponse.ok v → processRows (v.drop 1) = [] →
        load_trades_from_sheets resp = load_fallback_data) ∧
    load_fallback_data.length = 4 ∧
    load_trades_from_sheets resp ≠ [] := by
  have hlen : load_fallback_data.length = 4 := rfl
  have hfb : load_fallback_data ≠ [] := by simp [load_fallback_data]
  refine ⟨?_, ?_, ?_, hlen, ?_⟩
  · intro h
    cases resp with
    | ok v => exact absurd rfl (h v)
    | noConnection => rfl
    | spreadsheetNotFound => rfl
    | worksheetNotFound => rfl
    | apiError => rfl
    | otherError => rfl
  · intro v hv hlt
    subst hv
    simp only [load_trades_from_sheets]
    rw [if_pos hlt]
  · intro v hv hpr
    subst hv
    simp only [load_trades_from_sheets]
    split_ifs with h1 h2 h3
    · rfl
    · rfl
    · rfl
    · exact absurd (by simpa [List.isEmpty_iff, processRows] using hpr) h3
  · cases resp with
    | ok v =>
      simp only [load_trades_from_sheets]
      split_ifs with h1 h2 h3
      · exact hfb
      · exact hfb
      · exact hfb
      · simpa [List.isEmpty_iff] using h3
    | noConnection => exact hfb
    | spreadsheetNotFound => exact hfb
    | worksheetNotFound => exact hfb
    | apiError => exact hfb
    | otherError => exact hfb

/-- Witness for C4: an API error, an empty grid, and a grid whose single
data row is blank all yield the fallback dataset. -/
theorem c4_fallback_witness :
    load_trades_from_sheets SheetsResponse.apiError = load_fallback_data ∧
    load_trades_from_sheets (SheetsResponse.ok []) = load_fallback_data ∧
    load_trades_from_sheets (SheetsResponse.ok [expected_headers, []]) =
      load_fallback_data :=
  ⟨(c4_fallback SheetsResponse.apiError).1
      (fun v h => SheetsResponse.noConfusion h),
   (c4_fallback (SheetsResponse.ok [])).2.1 [] rfl (by decide),
   (c4_fallback (SheetsResponse.ok [expected_headers, []])).2.2.1
      [expected_headers, []] rfl rfl⟩

/-! ### C3: row parsing -/

/-- A numeric cell failing its guard converts to zero. -/
theorem convNum_guard_false (s : String) (v : ℚ) (hng : numGuard s = false)
    (h : convNum s = Except.ok v) : v = 0 := by
  simp only [convNum] at h
  rw [if_neg (by simp [hng])] at h
  injection h with h
  exact h.symm

/-- Field-level description of a successful row conversion. -/
theorem rowConvert_ok_elim (i : ℕ) (row : List String) (t0 : Trade)
    (hc : rowConvert i row = Except.ok t0) :
    convNum (cell row 4) = Except.ok t0.entry ∧
    convNum (cell row 5) = Except.ok t0.sl ∧
    convNum (cell row 6) = Except.ok t0.target ∧
    convNum (cell row 7) = Except.ok t0.risk ∧
    convNum (cell row 8) = Except.ok t0.reward ∧
    convNum (cell row 9) = Except.ok t0.rrRatio ∧
    t0.id = (if idGuard (cell row 0) then pyIntOfString (cell row 0) else (i + 1 : ℤ)) ∧
    t0.date = (if cell row 1 = "" then "" else pyStrip (cell row 1)) ∧
    t0.trader = (if cell row 2 = "" then "" else pyStrip (cell row 2)) ∧
    t0.instrument = (if cell row 3 = "" then "" else pyStrip (cell row 3)) ∧
    t0.outcome = (if cell row 10 = "" then "" else pyStrip (cell row 10)) ∧
    t0.result = (if cell row 11 = "" then "" else pyStrip (cell row 11)) := by
  cases h4 : convNum (cell row 4) with
  | error e => simp [rowConvert, h4, except_bind_error] at hc
  | ok v4 =>
  cases h5 : convNum (cell row 5) with
  | error e => simp [rowConvert, h4, h5, except_bind_ok, except_bind_error] at hc
  | ok v5 =>
  cases h6 : convNum (cell row 6) with
  | error e => simp [rowConvert, h4, h5, h6, except_bind_ok, except_bind_error] at hc
  | ok v6 =>
  cases h7 : convNum (cell row 7) with
  | error e => simp [rowConvert, h4, h5, h6, h7, except_bind_ok, except_bind_error] at hc
  | ok v7 =>
  cases h8 : convNum (cell row 8) with
  | error e => simp [rowConvert, h4, h5, h6, h7, h8, except_bind_ok, except_bind_error] at hc
  | ok v8 =>
  cases h9 : convNum (cell row 9) with
  | error e =>
    simp [rowConvert, h4, h5, h6, h7, h8, h9, except_bind_ok, except_bind_error] at hc
  | ok v9 =>
    simp only [rowConvert, h4, h5, h6, h7, h8, h9, except_bind_ok,
      Except.ok.injEq] at hc
    subst hc
    exact ⟨rfl, rfl, rfl, rfl, rfl, rfl, rfl, rfl, rfl, rfl, rfl, rfl⟩

/-- C3.  A row yields a record only when the trimmed trader and instrument
cells are non-empty; every numeric cell that is empty or fails the digit
test (after stripping dots and dashes) becomes `0.0`; the id comes from
the first cell when it passes the digit test and is the row index plus one
otherwise; and a row on which the conversion raises is skipped, processing
continuing with the next row. -/
theorem c3_row_parsing (i : ℕ) (row : List String) :
    (∀ t : Trade, processRow i row = some t →
        t.trader = pyStrip (cell row 2) ∧ t.trader ≠ "" ∧
        t.instrument = pyStrip (cell row 3) ∧ t.instrument ≠ "" ∧
        (numGuard (cell row 4) = false → t.entry = 0) ∧
        (numGuard (cell row 5) = false → t.sl = 0) ∧
        (numGuard (cell row 6) = false → t.target = 0) ∧
        (numGuard (cell row 7) = false → t.risk = 0) ∧
        (numGuard (cell row 8) = false → t.reward = 0) ∧
        (numGuard (cell row 9) = false → t.rrRatio = 0) ∧
        t.id = (if idGuard (cell row 0) then pyIntOfString (cell row 0)
                else (i + 1 : ℤ))) ∧
    (∀ rest, rowConvert i row = Except.error () →
        processRowsAux i (row :: rest) = processRowsAux (i + 1) rest) := by
  constructor
  · intro t h
    simp only [processRow] at h
    split_ifs at h with hemp
    cases hc : rowConvert i row with
    | error e => rw [hc] at h; exact Option.noConfusion h
    | ok t0 =>
      rw [hc] at h
      have h' : (if (!t0.trader.isEmpty && !t0.instrument.isEmpty) = true
          then some t0 else none) = some t := h
      split_ifs at h' with hta
      · injection h' with h'
        subst h'
        obtain ⟨h4, h5, h6, h7, h8, h9, hid, -, htr, hins, -, -⟩ :=
          rowConvert_ok_elim i row t0 hc
        simp only [Bool.and_eq_true, Bool.not_eq_true', String.isEmpty_iff] at hta
        have hc2 : t0.trader = pyStrip (cell row 2) := by
          rw [htr]
          by_cases hce : cell row 2 = ""
          · rw [if_pos hce, hce]; rfl
          · rw [if_neg hce]
        have hc3 : t0.instrument = pyStrip (cell row 3) := by
          rw [hins]
          by_cases hce : cell row 3 = ""
          · rw [if_pos hce, hce]; rfl
          · rw [if_neg hce]
        refine ⟨hc2, ?_, hc3, ?_, ?_, ?_, ?_, ?_, ?_, ?_, hid⟩
        · exact fun hh => absurd (hh ▸ hta.1) (by decide)
        · exact fun hh => absurd (hh ▸ hta.2) (by decide)
        · exact fun hng => convNum_guard_false _ _ hng h4
        · exact fun hng => convNum_guard_false _ _ hng h5
        · exact fun hng => convNum_guard_false _ _ hng h6
        · exact fun hng => convNum_guard_false _ _ hng h7
        · exact fun hng => convNum_guard_false _ _ hng h8
        · exact fun hng => convNum_guard_false _ _ hng h9
  · intro rest herr
    have hnone : processRow i row = none := by
      simp only [processRow]
      split_ifs with hemp
      · rfl
      · rw [herr]
    simp only [processRowsAux, hnone]

/-- Witness for C3 on two concrete rows: one that converts into a kept
record (`wrow`) and one on which `float` raises (`erow`). -/
theorem c3_row_parsing_witness :
    (wtrade.trader = pyStrip (cell wrow 2) ∧ wtrade.trader ≠ "" ∧
     wtrade.instrument = pyStrip (cell wrow 3) ∧ wtrade.instrument ≠ "" ∧
     (numGuard (cell wrow 4) = false → wtrade.entry = 0) ∧
     (numGuard (cell wrow 5) = false → wtrade.sl = 0) ∧
     (numGuard (cell wrow 6) = false → wtrade.target = 0) ∧
     (numGuard (cell wrow 7) = false → wtrade.risk = 0) ∧
     (numGuard (cell wrow 8) = false → wtrade.reward = 0) ∧
     (numGuard (cell wrow 9) = false → wtrade.rrRatio = 0) ∧
     wtrade.id = (if idGuard (cell wrow 0) then pyIntOfString (cell wrow 0)
                  else ((0 : ℕ) + 1 : ℤ))) ∧
    processRowsAux 3 (erow :: []) = processRowsAux (3 + 1) [] :=
  ⟨(c3_row_parsing 0 wrow).1 wtrade (by decide),
   (c3_row_parsing 3 erow).2 [] rfl⟩

/-! ### Ranking lemmas (shared by C1 and C6) -/

/-- Per-trader win count, unfolded over a cons. -/
theorem traderWins_cons (t : Trade) (ts : List Trade) (tr : String) :
    traderWins (t :: ts) tr =
      (if t.trader == tr then (if t.result == "Win" then 1 else 0) else 0) +
        traderWins ts tr := by
  by_cases h1 : (t.trader == tr) = true <;> by_cases h2 : (t.result == "Win") = true <;>
    simp [traderWins, List.filter_cons, h1, h2, List.countP_cons] <;> omega

/-- Per-trader trade count, unfolded over a cons. -/
theorem traderTotal_cons (t : Trade) (ts : List Trade) (tr : String) :
    traderTotal (t :: ts) tr =
      (if t.trader == tr then 1 else 0) + traderTotal ts tr := by
  by_cases h1 : (t.trader == tr) = true <;>
    simp [traderTotal, List.filter_cons, h1] <;> omega

/-- `bumpStats` updates exactly the bumped key of the lookup map. -/
theorem statsLookup_bump (l : List (String × ℕ × ℕ)) (tr : String) (b : Bool)
    (tr2 : String) :
    statsLookup (bumpStats l tr b) tr2 =
      if tr2 = tr then
        some (match statsLookup l tr with
              | some (w, n) => ((if b then w + 1 else w), n + 1)
              | none => ((if b then 1 else 0), 1))
      else statsLookup l tr2 := by
  induction l with
  | nil =>
    simp only [bumpStats, statsLookup]
    by_cases h : tr2 = tr
    · subst h; simp
    · rw [if_neg (fun hh : tr = tr2 => h hh.symm), if_neg h]
  | cons hd rest ih =>
    obtain ⟨name, w, n⟩ := hd
    simp only [bumpStats]
    by_cases hname : name = tr
    · subst hname
      rw [if_pos rfl]
      by_cases h2 : tr2 = name
      · subst h2; simp [statsLookup]
      · have hx : ¬name = tr2 := fun hh => h2 hh.symm
        simp [statsLookup, h2, hx]
    · rw [if_neg hname]
      by_cases h2 : tr2 = name
      · subst h2
        simp [statsLookup, hname]
      · have hx : ¬name = tr2 := fun hh => h2 hh.symm
        simp only [statsLookup, if_neg hx]
        rw [ih]
        by_cases h3 : tr2 = tr
        · rw [if_pos h3, if_pos h3]
          simp [statsLookup, hname]
        · rw [if_neg h3, if_neg h3]

/-- Folding the stats loop over further trades adds the per-trader counts
to an already tracked trader. -/
theorem statsLookup_foldl_some (ts : List Trade) (acc : List (String × ℕ × ℕ))
    (tr : String) (htr : tr ≠ "") (w n : ℕ)
    (hsl : statsLookup acc tr = some (w, n)) :
    statsLookup
        (ts.foldl (fun acc t =>
          if t.trader ≠ "" then bumpStats acc t.trader (t.result == "Win") else acc) acc)
        tr =
      some (w + traderWins ts tr, n + traderTotal ts tr) := by
  induction ts generalizing acc w n with
  | nil => simpa [traderWins, traderTotal] using hsl
  | cons t ts ih =>
    rw [List.foldl_cons, traderWins_cons, traderTotal_cons]
    by_cases ht : t.trader = ""
    · have hbeq : (t.trader == tr) = false := by
        rw [ht]; exact beq_eq_false_iff_ne.mpr (fun hh => htr hh.symm)
      rw [if_neg (by simp [ht]), hbeq]
      simpa using ih acc w n hsl
    · rw [if_pos (by simp [ht])]
      by_cases heq : t.trader = tr
      · have hb : statsLookup (bumpStats acc t.trader (t.result == "Win")) tr =
            some ((if (t.result == "Win") then w + 1 else w), n + 1) := by
          rw [statsLookup_bump, if_pos heq.symm, heq, hsl]
        rw [ih _ _ _ hb]
        have hbeq : (t.trader == tr) = true := beq_iff_eq.mpr heq
        rw [hbeq]
        cases hres : (t.result == "Win") <;> simp [hres] <;> omega
      · have hb : statsLookup (bumpStats acc t.trader (t.result == "Win")) tr =
            some (w, n) := by
          rw [statsLookup_bump, if_neg (fun hh => heq hh.symm), hsl]
        rw [ih _ _ _ hb]
        have hbeq : (t.trader == tr) = false := beq_eq_false_iff_ne.mpr heq
        rw [hbeq]
        simp

/-- Folding the stats loop over trades creates the entry of a trader not
yet tracked exactly when they have at least one trade. -/
theorem statsLookup_foldl_none (ts : List Trade) (acc : List (String × ℕ × ℕ))
    (tr : String) (htr : tr ≠ "")
    (hsl : statsLookup acc tr = none) :
    statsLookup
        (ts.foldl (fun acc t =>
          if t.trader ≠ "" then bumpStats acc t.trader (t.result == "Win") else acc) acc)
        tr =
      if traderTotal ts tr = 0 then none
      else some (traderWins ts tr, traderTotal ts tr) := by
  induction ts generalizing acc with
  | nil => simpa [traderWins, traderTotal] using hsl
  | cons t ts ih =>
    rw [List.foldl_cons, traderWins_cons, traderTotal_cons]
    by_cases ht : t.trader = ""
    · have hbeq : (t.trader == tr) = false := by
        rw [ht]; exact beq_eq_false_iff_ne.mpr (fun hh => htr hh.symm)
      rw [if_neg (by simp [ht]), hbeq]
      simpa using ih acc hsl
    · rw [if_pos (by simp [ht])]
      by_cases heq : t.trader = tr
      · have hb : statsLookup (bumpStats acc t.trader (t.result == "Win")) tr =
            some ((if (t.result == "Win") then 1 else 0), 1) := by
          rw [statsLookup_bump, if_pos heq.symm, heq, hsl]
        rw [statsLookup_foldl_some ts _ tr htr _ _ hb]
        have hbeq : (t.trader == tr) = true := beq_iff_eq.mpr heq
        rw [hbeq]
        have hnz : ¬((if (true : Bool) = true then 1 else 0) + traderTotal ts tr = 0) := by
          simp
        rw [if_neg hnz]
        cases hres : (t.result == "Win") <;> simp [hres] <;> omega
      · have hb : statsLookup (bumpStats acc t.trader (t.result == "Win")) tr =
            none := by
          rw [statsLookup_bump, if_neg (fun hh => heq hh.symm), hsl]
        rw [ih _ hb]
        have hbeq : (t.trader == tr) = false := beq_eq_false_iff_ne.mpr heq
        rw [hbeq]
        simp

/-- `bumpStats` keeps the key list, appending the new key when absent. -/
theorem statsKeys_bump (l : List (String × ℕ × ℕ)) (tr : String) (b : Bool) :
    statsKeys (bumpStats l tr b) =
      if tr ∈ statsKeys l then statsKeys l else statsKeys l ++ [tr] := by
  induction l with
  | nil => simp [bumpStats, statsKeys]
  | cons hd rest ih =>
    obtain ⟨name, w, n⟩ := hd
    by_cases h : name = tr
    · subst h
      simp [bumpStats, statsKeys]
    · have hx : ¬tr = name := fun hh => h hh.symm
      simp only [bumpStats, if_neg h, statsKeys, List.map_cons, List.mem_cons]
      by_cases h2 : tr ∈ statsKeys rest
      · rw [if_pos (Or.inr (by simpa [statsKeys] using h2))]
        have := ih
        rw [if_pos h2] at this
        simpa [statsKeys] using this
      · rw [if_neg (by
          rintro (hh | hh)
          · exact hx hh
          · exact h2 (by simpa [statsKeys] using hh))]
        have := ih
        rw [if_neg h2] at this
        simpa [statsKeys] using this

/-- The stats fold keeps keys non-empty and duplicate-free. -/
theorem statsKeys_foldl_invariant (ts : List Trade) (acc : List (String × ℕ × ℕ))
    (hnd : (statsKeys acc).Nodup) (hne : ∀ k ∈ statsKeys acc, k ≠ "") :
    (statsKeys
        (ts.foldl (fun acc t =>
          if t.trader ≠ "" then bumpStats acc t.trader (t.result == "Win") else acc)
          acc)).Nodup ∧
    (∀ k ∈ statsKeys
        (ts.foldl (fun acc t =>
          if t.trader ≠ "" then bumpStats acc t.trader (t.result == "Win") else acc)
          acc), k ≠ "") := by
  induction ts generalizing acc with
  | nil => exact ⟨hnd, hne⟩
  | cons t ts ih =>
    rw [List.foldl_cons]
    by_cases ht : t.trader = ""
    · rw [if_neg (by simp [ht])]
      exact ih acc hnd hne
    · rw [if_pos (by simp [ht])]
      apply ih
      · rw [statsKeys_bump]
        split_ifs with hmem
        · exact hnd
        · rw [List.nodup_append]
          exact ⟨hnd, List.nodup_singleton _, fun x hx hx2 => by
            simp at hx2; subst hx2; exact hmem hx⟩
      · intro k hk
        rw [statsKeys_bump] at hk
        split_ifs at hk with hmem
        · exact hne k hk
        · rcases List.mem_append.mp hk with hk | hk
          · exact hne k hk
          · simp at hk; subst hk; exact ht

/-- In a stats list with duplicate-free keys, every member is found by
lookup. -/
theorem statsLookup_of_mem (l : List (String × ℕ × ℕ)) (s : String × ℕ × ℕ)
    (hnd : (statsKeys l).Nodup) (hm : s ∈ l) :
    statsLookup l s.1 = some s.2 := by
  induction l with
  | nil => cases hm
  | cons hd rest ih =>
    obtain ⟨name, wn⟩ := hd
    rcases List.mem_cons.mp hm with h | h
    · subst h
      simp [statsLookup]
    · have hks : s.1 ∈ statsKeys rest := by
        simpa [statsKeys] using List.mem_map_of_mem (fun x => x.1) h
      have hne : ¬name = s.1 := by
        intro hh
        have : name ∉ statsKeys rest := by
          have := hnd
          rw [statsKeys, List.map_cons, List.nodup_cons] at this
          simpa [statsKeys] using this.1
        exact this (hh ▸ hks)
      simp only [statsLookup, if_neg hne]
      refine ih ?_ h
      have := hnd
      rw [statsKeys, List.map_cons, List.nodup_cons] at this
      simpa [statsKeys] using this.2

/-- Every `trader_stats` entry holds exactly the trader's win count and
trade count over the whole list, with a non-empty name and at least one
trade. -/
theorem traderStats_mem (trades : List Trade) (s : String × ℕ × ℕ)
    (hm : s ∈ traderStats trades) :
    s.1 ≠ "" ∧ s.2.1 = traderWins trades s.1 ∧ s.2.2 = traderTotal trades s.1 ∧
    0 < s.2.2 := by
  have hkeys := statsKeys_foldl_invariant trades [] (by simp [statsKeys])
    (by simp [statsKeys])
  have hm' : s ∈ trades.foldl (fun acc t =>
      if t.trader ≠ "" then bumpStats acc t.trader (t.result == "Win") else acc) [] := hm
  have hs1 : s.1 ≠ "" := hkeys.2 s.1 (by
    simpa [statsKeys] using List.mem_map_of_mem (fun x => x.1) hm')
  have hl := statsLookup_of_mem _ s hkeys.1 hm'
  have hf := statsLookup_foldl_none trades [] s.1 hs1 rfl
  rw [hl] at hf
  by_cases h0 : traderTotal trades s.1 = 0
  · rw [if_pos h0] at hf
    exact absurd hf (by simp)
  · rw [if_neg h0] at hf
    injection hf with hf
    refine ⟨hs1, ?_, ?_, ?_⟩
    · exact congrArg Prod.fst hf
    · exact congrArg Prod.snd hf
    · have := congrArg Prod.snd hf
      simp only at this
      omega

/-- Assigning ranks does not change the win-rate column. -/
theorem assignRanks_map_winrate (i : ℕ) (l : List RankEntry) :
    (assignRanks i l).map (fun e => e.win_rate) = l.map (fun e => e.win_rate) := by
  induction l generalizing i with
  | nil => rfl
  | cons a l ih => simp [assignRanks, ih]

/-- Assigning ranks writes the consecutive integers `i+1, i+2, ...`. -/
theorem assignRanks_map_rank (i : ℕ) (l : List RankEntry) :
    (assignRanks i l).map (fun e => e.rank) = List.range' (i + 1) l.length := by
  induction l generalizing i with
  | nil => rfl
  | cons a l ih =>
    simp only [assignRanks, List.map_cons, List.length_cons, List.range'_succ]
    exact congrArg (List.cons (i + 1)) (ih (i + 1))

/-- Assigning ranks preserves length. -/
theorem assignRanks_length (i : ℕ) (l : List RankEntry) :
    (assignRanks i l).length = l.length := by
  induction l generalizing i with
  | nil => rfl
  | cons a l ih => simp [assignRanks, ih]

/-- Every ranked entry comes from an unranked entry with the same data. -/
theorem mem_assignRanks (i : ℕ) (l : List RankEntry) (e : RankEntry)
    (he : e ∈ assignRanks i l) :
    ∃ e0 ∈ l, e.name = e0.name ∧ e.win_rate = e0.win_rate ∧ e.wins = e0.wins ∧
      e.losses = e0.losses ∧ e.total = e0.total := by
  induction l generalizing i with
  | nil => cases he
  | cons a l ih =>
    rcases List.mem_cons.mp he with h | h
    · subst h
      exact ⟨a, List.mem_cons_self a l, rfl, rfl, rfl, rfl, rfl⟩
    · rcases ih (i + 1) h with ⟨e0, he0, hp⟩
      exact ⟨e0, List.mem_cons_of_mem a he0, hp⟩

/-- Every entry of the rankings describes one trader's counts over the
whole in-memory trade list. -/
theorem mem_rankingsOf (trades : List Trade) (e : RankEntry)
    (he : e ∈ rankingsOf trades) :
    e.name ≠ "" ∧ e.wins = traderWins trades e.name ∧
    e.total = traderTotal trades e.name ∧ e.losses = e.total - e.wins ∧
    0 < e.total ∧
    e.win_rate = pyRound ((e.wins : ℚ) / (e.total : ℚ) * 100) 1 := by
  unfold rankingsOf at he
  split_ifs at he with hemp
  · cases he
  · obtain ⟨e0, he0, hname, hwr, hwins, hloss, htot⟩ := mem_assignRanks _ _ _ he
    rw [List.mem_mergeSort] at he0
    rcases List.mem_filterMap.mp he0 with ⟨s, hs, hmk⟩
    split_ifs at hmk with hpos
    all_goals try exact Option.noConfusion hmk
    injection hmk with hmk
    subst hmk
    obtain ⟨hs1, hw, hn, hp⟩ := traderStats_mem trades s hs
    refine ⟨?_, ?_, ?_, ?_, ?_, ?_⟩
    · rw [hname]; exact hs1
    · rw [hwins, hname]; exact hw
    · rw [htot, hname]; exact hn
    · rw [hloss, htot, hwins]
    · rw [htot]; exact hp
    · rw [hwr, hwins, htot]

/-- Rounding an integer value changes nothing. -/
theorem roundHalfEven_intCast (k : ℤ) : roundHalfEven (k : ℚ) = k := by
  unfold roundHalfEven
  rw [Int.floor_intCast]
  rw [if_pos (by rw [sub_self]; norm_num)]

/-- `round(50.0, 1) = 50.0`, the concrete win rate of the two-trade
fixture. -/
theorem pyRound_half100 : pyRound ((1 : ℚ) / 2 * 100) 1 = 50 := by
  unfold pyRound
  have h : ((1 : ℚ) / 2 * 100) * 10 ^ 1 = ((500 : ℤ) : ℚ) := by norm_num
  rw [h, roundHalfEven_intCast]
  norm_num

/-- The rankings of the two-trade fixture: a single entry for `Waithaka`
whose denominator counts both the closed and the open trade. -/
theorem rankingsOf_cexTrades : rankingsOf cexTrades = [cexEntry] := by
  simp +decide [rankingsOf, cexTrades, cexTrade1, cexTrade2, traderStats,
    bumpStats, assignRanks, cexEntry]

/-! ### C6: rankings are sorted, ranked 1..n, and internally consistent -/

/-- C6.  The rankings computed from the trade list are sorted in
non-increasing order of win rate, carry ranks 1..n in that order, and
each entry's wins and losses sum to its total trade count. -/
theorem c6_rankings (trades : List Trade) :
    ((rankingsOf trades).map (fun e => e.win_rate)).Sorted (· ≥ ·) ∧
    ((rankingsOf trades).map (fun e => e.rank)) =
      List.range' 1 (rankingsOf trades).length ∧
    (∀ e ∈ rankingsOf trades, e.wins + e.losses = e.total) := by
  refine ⟨?_, ?_, ?_⟩
  · unfold rankingsOf
    split_ifs with hemp
    · simp
    · rw [assignRanks_map_winrate]
      have hs := @List.sorted_mergeSort RankEntry
        (fun a b : RankEntry => decide (b.win_rate ≤ a.win_rate))
        (fun a b c hab hbc => by
          simp only [decide_eq_true_eq] at hab hbc ⊢
          exact le_trans hbc hab)
        (fun a b => by
          rcases le_total a.win_rate b.win_rate with h | h
          · simp [h]
          · simp [h])
        ((traderStats trades).filterMap (fun s =>
          if 0 < s.2.2 then
            some { name := s.1
                   win_rate := pyRound ((s.2.1 : ℚ) / (s.2.2 : ℚ) * 100) 1
                   wins := s.2.1, losses := s.2.2 - s.2.1, total := s.2.2
                   rank := 0 }
          else none))
      rw [List.Sorted, List.pairwise_map]
      exact hs.imp (fun hab => by simpa using hab)
  · unfold rankingsOf
    split_ifs with hemp
    · rfl
    · rw [assignRanks_map_rank, assignRanks_length]
  · intro e he
    obtain ⟨-, hwins, htot, hloss, -, -⟩ := mem_rankingsOf trades e he
    have hle : traderWins trades e.name ≤ traderTotal trades e.name :=
      List.countP_le_length _
    omega

/-- Witness for C6: the fixture's single ranking entry has
`wins + losses = total`. -/
theorem c6_rankings_witness : cexEntry.wins + cexEntry.losses = cexEntry.total :=
  (c6_rankings cexTrades).2.2 cexEntry
    (by rw [rankingsOf_cexTrades]; exact List.mem_cons_self _ _)

/-! ### C1: the win-rate denominator (corrected) -/

/-- Counterexample to C1 as stated: with one closed winning trade and one
open trade for the same trader, the code displays a 50% win rate (and a
50% trader×instrument cell), while wins ÷ closed trades would be 100%. -/
theorem c1_counterexample :
    (rankingsOf cexTrades).map (fun e => (e.name, e.win_rate)) =
      [("Waithaka", 50)] ∧
    specWinRateTrader cexTrades "Waithaka" = 100 ∧
    perfCell cexTrades "Waithaka" "XAUUSD" = some 50 ∧
    ((50 : ℚ) ≠ 100) := by
  refine ⟨?_, ?_, ?_, by norm_num⟩
  · rw [rankingsOf_cexTrades]
    show [(cexEntry.name, cexEntry.win_rate)] = [("Waithaka", 50)]
    rw [show cexEntry.win_rate = pyRound ((1 : ℚ) / 2 * 100) 1 from rfl,
        pyRound_half100]
    rfl
  · norm_num +decide [specWinRateTrader, cexTrades, cexTrade1, cexTrade2]
  · unfold perfCell
    rw [show pairTrades cexTrades "Waithaka" "XAUUSD" = cexTrades from by
          simp +decide [pairTrades, cexTrades, cexTrade1, cexTrade2]]
    norm_num +decide [cexTrades, cexTrade1, cexTrade2]

/-- C1 (amended).  The displayed win rate of a trader is
`wins ÷ ALL of that trader's trades` (open trades included in the
denominator), as a rounded percentage; the trader×instrument cell is
likewise `wins ÷ all trades of the pair`, and it is empty (`"-"`) exactly
when the pair has no trades. -/
theorem c1_amended_win_rates (trades : List Trade) :
    (∀ e ∈ rankingsOf trades,
        e.win_rate =
          pyRound ((traderWins trades e.name : ℚ) /
            (traderTotal trades e.name : ℚ) * 100) 1 ∧
        e.wins = traderWins trades e.name ∧
        e.total = traderTotal trades e.name) ∧
    (∀ tr ins : String,
        (perfCell trades tr ins = none ↔ pairTrades trades tr ins = []) ∧
        (pairTrades trades tr ins ≠ [] →
          perfCell trades tr ins =
            some (((pairTrades trades tr ins).countP
                (fun t => t.result == "Win") : ℚ) /
              ((pairTrades trades tr ins).length : ℚ) * 100))) := by
  constructor
  · intro e he
    obtain ⟨-, hwins, htot, -, -, hwr⟩ := mem_rankingsOf trades e he
    refine ⟨?_, hwins, htot⟩
    rw [hwr, hwins, htot]
  · intro tr ins
    by_cases h : (pairTrades trades tr ins).isEmpty
    · have he : pairTrades trades tr ins = [] := List.isEmpty_iff.mp h
      constructor
      · unfold perfCell
        rw [if_pos h]
        simp [he]
      · intro hc
        exact absurd he hc
    · have hne : pairTrades trades tr ins ≠ [] :=
        fun hh => h (List.isEmpty_iff.mpr hh)
      constructor
      · unfold perfCell
        rw [if_neg h]
        simp [hne]
      · intro _
        unfold perfCell
        rw [if_neg h]

/-- Witness for the amended C1 at the two-trade fixture. -/
theorem c1_amended_win_rates_witness :
    (cexEntry.win_rate =
       pyRound ((traderWins cexTrades cexEntry.name : ℚ) /
         (traderTotal cexTrades cexEntry.name : ℚ) * 100) 1 ∧
     cexEntry.wins = traderWins cexTrades cexEntry.name ∧
     cexEntry.total = traderTotal cexTrades cexEntry.name) ∧
    perfCell cexTrades "Waithaka" "XAUUSD" =
      some (((pairTrades cexTrades "Waithaka" "XAUUSD").countP
          (fun t => t.result == "Win") : ℚ) /
        ((pairTrades cexTrades "Waithaka" "XAUUSD").length : ℚ) * 100) :=
  ⟨(c1_amended_win_rates cexTrades).1 cexEntry
     (by rw [rankingsOf_cexTrades]; exact List.mem_cons_self _ _),
   ((c1_amended_win_rates cexTrades).2 "Waithaka" "XAUUSD").2
     (by simp +decide [pairTrades, cexTrades, cexTrade1, cexTrade2])⟩

end FxMe
